import Mathlib

/-!
Verification of the iter8 traffic RouteMap controller core.

The controllers package of the repository is represented here by a shallow
embedding.  The `abn/application` map code is translated directly from
`src/abn/application/applicationmap.go`; the controller functions
(`conditionsSatisfied`, `getObservedGeneration`, `normalizeWeights`,
`extractRoutemap`) are only exercised by the repository's test file, so their
bodies are modelled from the specification, faithful to its words, and checked
against the expectations recorded in the tests.
-/

namespace Iter8

/-- A required status predicate: a condition name (matched against an object's
reported condition type) and the required status value. -/
structure Condition where
  Name : String
  Status : String
deriving DecidableEq

/-- One resource-type entry of the Config: the fully-qualified
group/version/resource triple plus the set of conditions required for
readiness. -/
structure GroupVersionResourceConditions where
  Group : String
  Version : String
  Resource : String
  Conditions : List Condition
deriving DecidableEq

/-- Static configuration: a registry from short resource-type tags to resource
kinds and required readiness conditions, plus a default resync interval. -/
structure Config where
  ResourceTypes : List (String × GroupVersionResourceConditions)
  DefaultResync : String
deriving DecidableEq

/-- Association-list lookup, used for every string-keyed map of the embedding. -/
def alistLookup {α : Type} : List (String × α) → String → Option α
  | [], _ => none
  | (k, v) :: rest, key => if k = key then some v else alistLookup rest key

/-- The set of conditions the Config requires for a resource-type tag; a tag
absent from the Config has no required conditions. -/
def requiredConditions (config : Config) (tag : String) : List Condition :=
  match alistLookup config.ResourceTypes tag with
  | some gvrc => gvrc.Conditions
  | none => []

/-- A loosely structured (duck-typed) document value, as traversed when reading
an observed object's status. -/
inductive UVal where
  | vStr : String → UVal
  | vInt : Int → UVal
  | vBool : Bool → UVal
  | vList : List UVal → UVal
  | vMap : List (String × UVal) → UVal

/-- The part of an observed cluster object that the condition evaluator
consults: its current generation, the optional top-level status-reported
generation, and the optional loosely structured condition list. -/
structure UnstructuredObj where
  generation : Int
  statusObservedGeneration : Option Int
  statusConditions : Option (List UVal)

/-- Modelled from the spec: `getObservedGeneration` of the controllers package
(whose source file is not included).  Precedence is the condition-level
reported generation first; if absent, fall back to the object's top-level
status-reported generation; if neither is present, `found = false`. -/
def getObservedGeneration (obj : UnstructuredObj) (condition : List (String × UVal)) :
    Int × Bool :=
  match alistLookup condition "observedGeneration" with
  | some (UVal.vInt g) => (g, true)
  | _ =>
    match obj.statusObservedGeneration with
    | some g => (g, true)
    | none => (0, false)

/-- The condition-type name of a reported entry, when the entry is well-formed
enough to carry one (a map with a string "type" field). -/
def entryTypeName : UVal → Option String
  | UVal.vMap fields =>
    match alistLookup fields "type" with
    | some (UVal.vStr t) => some t
    | _ => none
  | _ => none

/-- The reported status string of an entry, when the entry is well-formed
enough to carry one (a map with a string "status" field). -/
def entryStatusStr : UVal → Option String
  | UVal.vMap fields =>
    match alistLookup fields "status" with
    | some (UVal.vStr s) => some s
    | _ => none
  | _ => none

/-- Modelled from the spec: one reported condition entry satisfies a required
Condition exactly when it is a map whose "type" field names the condition,
whose "status" field equals the required status, and whose observed generation
is found and does not lag the object's current generation.  Any shape mismatch
fails closed. -/
def entrySatisfies (obj : UnstructuredObj) (c : Condition) : UVal → Bool
  | UVal.vMap fields =>
    (entryTypeName (UVal.vMap fields) == some c.Name)
      && (entryStatusStr (UVal.vMap fields) == some c.Status)
      && ((getObservedGeneration obj fields).2
            && decide (obj.generation ≤ (getObservedGeneration obj fields).1))
  | _ => false

/-- Modelled from the spec: `conditionsSatisfied` of the controllers package
(whose source file is not included).  Every condition required for the tag
must be matched, with the required status, by some entry of the object's
structured condition list at a fresh generation; an absent condition list
fails every required condition; an empty required set is vacuously
satisfied. -/
def conditionsSatisfied (obj : UnstructuredObj) (tag : String) (config : Config) : Bool :=
  (requiredConditions config tag).all fun c =>
    match obj.statusConditions with
    | none => false
    | some entries => entries.any (entrySatisfies obj c)

/-- A reference to one cluster object: resource-type tag, name, and optional
explicit namespace (absent means the owning routemap's namespace). -/
structure resource where
  GVRShort : String
  Name : String
  Namespace : Option String
deriving DecidableEq

/-- One traffic-split unit: an ordered set of resources and an optional
explicit weight. -/
structure version where
  Resources : List resource
  Weight : Option Nat
deriving DecidableEq

/-- One managed application's routemap: identity, declared versions, and the
computed normalized weight vector. -/
structure routemap where
  Name : String
  Namespace : String
  Versions : List version
  NormalizedWeights : List Nat
deriving DecidableEq

/-- The public accessor for the routemap's computed weight vector. -/
def routemap.Weights (s : routemap) : List Nat :=
  s.NormalizedWeights

/-- Fully resolved identity of a cluster object in the local cache. -/
structure ObjRef where
  gvrShort : String
  ns : String
  nm : String
deriving DecidableEq

/-- The controller's local (informer-cache) view of cluster state. -/
abbrev ClusterState := List (ObjRef × UnstructuredObj)

/-- Look up one object in the local cache. -/
def lookupObject : ClusterState → ObjRef → Option UnstructuredObj
  | [], _ => none
  | (r, o) :: rest, q => if r = q then some o else lookupObject rest q

/-- Modelled from the spec: a resource is available when the referenced object
is resolvable in the local cache and satisfies its resource type's required
conditions; an unresolvable object is unavailable, not an error. -/
def resourceAvailable (cs : ClusterState) (config : Config) (rmNs : String)
    (r : resource) : Bool :=
  match lookupObject cs ⟨r.GVRShort, r.Namespace.getD rmNs, r.Name⟩ with
  | none => false
  | some obj => conditionsSatisfied obj r.GVRShort config

/-- Modelled from the spec: a version is available exactly when every one of
its resources is available. -/
def isVersionAvailable (cs : ClusterState) (config : Config) (rmNs : String)
    (v : version) : Bool :=
  v.Resources.all (resourceAvailable cs config rmNs)

/-- The fixed default weight: the default unit weight of a version, also used
as the full weight of the baseline when every resolved weight is zero. -/
def defaultVersionWeight : Nat := 1

/-- Modelled from the spec: per-version weight resolution by precedence — an
explicit external override for the version if present, otherwise the weight
declared in the routemap's spec, otherwise the default unit weight. -/
def resolveVersionWeight (override : Option Nat) (v : version) : Nat :=
  match override with
  | some w => w
  | none =>
    match v.Weight with
    | some w => w
    | none => defaultVersionWeight

/-- Modelled from the spec: the per-version resolution pass of the weight
normalizer — each version gets its precedence-resolved weight if available,
and 0 if unavailable.  The override list is consumed positionally. -/
def resolvedWeights (cs : ClusterState) (config : Config) (rmNs : String) :
    List version → List (Option Nat) → List Nat
  | [], _ => []
  | v :: vs, ovs =>
    (if isVersionAvailable cs config rmNs v then
      resolveVersionWeight (ovs.headD none) v
    else 0) :: resolvedWeights cs config rmNs vs ovs.tail

/-- Modelled from the spec: `normalizeWeights` of the controllers package
(whose source file is not included).  After per-version resolution, if the sum
across all versions is 0, the vector is overridden entirely: the version at
index 0 receives the fixed default full weight and every other version
receives 0; otherwise the resolved weights stand unchanged. -/
def normalizeWeights (cs : ClusterState) (overrides : List (Option Nat))
    (rm : routemap) (config : Config) : routemap :=
  if (resolvedWeights cs config rm.Namespace rm.Versions overrides).sum = 0 then
    match rm.Versions with
    | [] => { rm with NormalizedWeights := [] }
    | _ :: rest =>
      { rm with NormalizedWeights := defaultVersionWeight :: rest.map fun _ => 0 }
  else
    { rm with NormalizedWeights := resolvedWeights cs config rm.Namespace rm.Versions overrides }

/-- A labeled configuration object as seen by the extractor: identity, labels,
and the string-keyed data map holding the declared specification. -/
structure ConfigObject where
  Name : String
  Namespace : String
  labels : List (String × String)
  data : List (String × String)

/-- The managed-by label key expected on a routemap configuration object. -/
def iter8ManagedByLabel : String := "app.kubernetes.io/managed-by"

/-- The managed-by label value identifying this system. -/
def iter8ManagedByValue : String := "iter8"

/-- The kind label key expected on a routemap configuration object. -/
def iter8KindLabel : String := "iter8.tools/kind"

/-- The kind label value identifying a routemap configuration object. -/
def iter8KindRoutemapValue : String := "routemap"

/-- The version label key expected on a routemap configuration object. -/
def iter8VersionLabel : String := "iter8.tools/version"

/-- The compatible major.minor version value. -/
def majorMinor : String := "v0.14"

/-- The designated key of the data field holding the declared specification. -/
def strSpecKey : String := "strSpec"

/-- Modelled from the spec: the management-label validation of
`extractRoutemap` — managed-by, kind and version labels must all match. -/
def labelsMatch (cm : ConfigObject) : Bool :=
  (alistLookup cm.labels iter8ManagedByLabel == some iter8ManagedByValue)
    && (alistLookup cm.labels iter8KindLabel == some iter8KindRoutemapValue)
    && (alistLookup cm.labels iter8VersionLabel == some majorMinor)

/-- Modelled from the spec: `extractRoutemap` of the controllers package
(whose source file is not included).  Non-matching labels are ignored, not
errored (`Except.ok none`); a missing or undeserializable data field is an
error; otherwise the deserialized versions form the routemap.  Deserialization
of the structured document is an external collaborator, supplied as the
function `deserialize`. -/
def extractRoutemap (deserialize : String → Option (List version))
    (cm : ConfigObject) (config : Config) : Except String (Option routemap) :=
  if labelsMatch cm then
    match alistLookup cm.data strSpecKey with
    | none => Except.error "missing spec data field"
    | some s =>
      match deserialize s with
      | none => Except.error "cannot deserialize spec data field"
      | some vers =>
        Except.ok (some { Name := cm.Name, Namespace := cm.Namespace,
                          Versions := vers, NormalizedWeights := [] })
  else Except.ok none

/-- The process-wide routemap registry, keyed by namespace/name. -/
abbrev Registry := List ((String × String) × routemap)

/-- Create-or-replace one routemap in the registry. -/
def registryPut (reg : Registry) (rm : routemap) : Registry :=
  ((rm.Namespace, rm.Name), rm) ::
    reg.filter fun e => decide (e.fst ≠ (rm.Namespace, rm.Name))

/-- Modelled from the spec: the configuration-object added/updated handler —
extract; on success create-or-replace the normalized routemap in the registry;
on an ignored object or an extraction error leave the registry untouched. -/
def handleConfigObjectEvent (deserialize : String → Option (List version))
    (cs : ClusterState) (overrides : List (Option Nat)) (reg : Registry)
    (cm : ConfigObject) (config : Config) : Registry :=
  match extractRoutemap deserialize cm config with
  | Except.error _ => reg
  | Except.ok none => reg
  | Except.ok (some rm) => registryPut reg (normalizeWeights cs overrides rm config)

/-- Modelled from the spec: the Application record of the abn subsystem (its
defining source file is not included; only the map over it is).  Everything
beyond its name is irrelevant to the map mechanics and abstracted as an opaque
payload, so that two distinct Applications may share a name. -/
structure Application where
  Name : String
  payload : Nat
deriving DecidableEq

/-- The thread-safe application map: the name-keyed application map, the
parallel map of per-application locks (a lock is represented by the presence of
its key), and the last-write times. -/
structure ThreadSafeApplicationMap where
  apps : List (String × Application)
  mutexes : List String
  lastWriteTimes : List (String × Int)
deriving DecidableEq

/-- `Put` adds an application into the application map if it is not already
there, allocating its per-application lock in the same step, and returns the
application that is/was there. -/
def ThreadSafeApplicationMap.Put (m : ThreadSafeApplicationMap) (a : Application) :
    ThreadSafeApplicationMap × Application :=
  match alistLookup m.apps a.Name with
  | some current => (m, current)
  | none =>
    ({ m with apps := (a.Name, a) :: m.apps, mutexes := a.Name :: m.mutexes }, a)

/-! ### Helper lemmas about the weight normalizer -/

theorem resolvedWeights_length (cs : ClusterState) (config : Config) (rmNs : String) :
    ∀ (vs : List version) (ovs : List (Option Nat)),
      (resolvedWeights cs config rmNs vs ovs).length = vs.length
  | [], _ => rfl
  | _ :: vs, ovs => by
    simp [resolvedWeights, resolvedWeights_length cs config rmNs vs ovs.tail]

theorem resolvedWeights_all_unavailable (cs : ClusterState) (config : Config) (rmNs : String)
    (vs : List version) (ovs : List (Option Nat))
    (h : ∀ v ∈ vs, isVersionAvailable cs config rmNs v = false) :
    resolvedWeights cs config rmNs vs ovs = List.replicate vs.length 0 := by
  induction vs generalizing ovs with
  | nil => rfl
  | cons v vs ih =>
    simp only [resolvedWeights, List.length_cons, List.replicate_succ]
    rw [h v (by simp), ih ovs.tail fun u hu => h u (by simp [hu])]
    simp

theorem sum_replicate_zero (n : Nat) : (List.replicate n (0 : Nat)).sum = 0 := by
  induction n with
  | zero => rfl
  | succ n ih => simp [List.replicate_succ, ih]

theorem normalizeWeights_fields (cs : ClusterState) (overrides : List (Option Nat))
    (config : Config) (rm : routemap) :
    (normalizeWeights cs overrides rm config).Name = rm.Name
    ∧ (normalizeWeights cs overrides rm config).Namespace = rm.Namespace
    ∧ (normalizeWeights cs overrides rm config).Versions = rm.Versions := by
  obtain ⟨nm, ns, vs, w⟩ := rm
  by_cases h : (resolvedWeights cs config ns vs overrides).sum = 0
  · cases vs <;> simp [normalizeWeights, h]
  · simp [normalizeWeights, h]

theorem normalizeWeights_eq_of_fields (cs : ClusterState) (overrides : List (Option Nat))
    (config : Config) (rm rm' : routemap)
    (h1 : rm'.Name = rm.Name) (h2 : rm'.Namespace = rm.Namespace)
    (h3 : rm'.Versions = rm.Versions) :
    normalizeWeights cs overrides rm' config = normalizeWeights cs overrides rm config := by
  obtain ⟨nm, ns, vs, w⟩ := rm
  obtain ⟨nm', ns', vs', w'⟩ := rm'
  dsimp only at h1 h2 h3
  rw [h1, h2, h3]
  by_cases h : (resolvedWeights cs config ns vs overrides).sum = 0
  · cases vs <;> simp [normalizeWeights, h]
  · simp [normalizeWeights, h]

theorem resolveVersionWeight_getD (o : Option Nat) (v : version) :
    resolveVersionWeight o v = o.getD (v.Weight.getD defaultVersionWeight) := by
  cases o <;> cases hv : v.Weight <;> simp [resolveVersionWeight, hv]

theorem resolvedWeights_getD (cs : ClusterState) (config : Config) (rmNs : String)
    (vs : List version) : ∀ (ovs : List (Option Nat)) (i : Nat), i < vs.length →
      (resolvedWeights cs config rmNs vs ovs).getD i 0 =
        if isVersionAvailable cs config rmNs (vs.getD i ⟨[], none⟩) then
          (ovs.getD i none).getD ((vs.getD i ⟨[], none⟩).Weight.getD defaultVersionWeight)
        else 0 := by
  induction vs with
  | nil => intro ovs i hi; simp at hi
  | cons v vs ih =>
    intro ovs i hi
    cases i with
    | zero =>
      simp only [resolvedWeights, List.getD_cons_zero, resolveVersionWeight_getD]
      cases ovs <;> simp [List.headD, List.getD]
    | succ i =>
      have hi' : i < vs.length := Nat.lt_of_succ_lt_succ hi
      simp only [resolvedWeights, List.getD_cons_succ]
      rw [ih ovs.tail i hi']
      cases ovs <;> simp [List.getD, List.tail]

/-! ### Test fixtures used by the witnesses -/

/-- The Config of the normalizer test: one condition-free "svc" resource type. -/
def svcConfig : Config :=
  ⟨[("svc", ⟨"", "v1", "services", []⟩)], "30s"⟩

/-- The routemap of scenario A: three versions, each backed by one distinct
service resource, none of which exists in the local cache. -/
def testRoutemap : routemap :=
  ⟨"testRoutemap", "default",
    [⟨[⟨"svc", "resource1", some "default"⟩], none⟩,
     ⟨[⟨"svc", "resource2", some "default"⟩], none⟩,
     ⟨[⟨"svc", "resource3", some "default"⟩], none⟩], []⟩

/-- A routemap with two resource-free (hence available) versions, the first
with a declared weight. -/
def weightedRoutemap : routemap :=
  ⟨"weighted", "default", [⟨[], some 2⟩, ⟨[], none⟩], []⟩

/-! ### Claims about the weight normalizer -/

/-- C1: for every RouteMap in which every version is unavailable, the
normalizer produces the vector `[defaultWeight, 0, 0, ...]`: the version at
index 0 receives the fixed default full weight and every other version
receives 0. -/
theorem normalizeWeights_all_unavailable (cs : ClusterState) (overrides : List (Option Nat))
    (config : Config) (rm : routemap)
    (hne : rm.Versions ≠ [])
    (hun : ∀ v ∈ rm.Versions, isVersionAvailable cs config rm.Namespace v = false) :
    (normalizeWeights cs overrides rm config).Weights =
      defaultVersionWeight :: List.replicate (rm.Versions.length - 1) 0 := by
  obtain ⟨nm, ns, vs, w⟩ := rm
  have hres := resolvedWeights_all_unavailable cs config ns vs overrides hun
  cases vs with
  | nil => exact absurd rfl hne
  | cons v rest =>
    simp only [normalizeWeights, routemap.Weights]
    rw [hres, sum_replicate_zero]
    simp [List.map_const']

/-- C1 witness: scenario A — three versions of a condition-free resource type,
none of whose resources exists in the empty local cache. -/
theorem normalizeWeights_all_unavailable_witness :
    (normalizeWeights [] [] testRoutemap svcConfig).Weights =
      defaultVersionWeight :: List.replicate (testRoutemap.Versions.length - 1) 0 :=
  normalizeWeights_all_unavailable [] [] svcConfig testRoutemap (by decide) (by decide)

/-- C2: for every RouteMap with at least one version, the sum of the weight
vector after normalization is strictly positive. -/
theorem normalizeWeights_sum_pos (cs : ClusterState) (overrides : List (Option Nat))
    (config : Config) (rm : routemap) (hne : rm.Versions ≠ []) :
    0 < (normalizeWeights cs overrides rm config).Weights.sum := by
  obtain ⟨nm, ns, vs, w⟩ := rm
  by_cases h : (resolvedWeights cs config ns vs overrides).sum = 0
  · cases vs with
    | nil => exact absurd rfl hne
    | cons v rest => simp [normalizeWeights, routemap.Weights, h, defaultVersionWeight]
  · simp only [normalizeWeights, routemap.Weights, if_neg h]
    exact Nat.pos_of_ne_zero h

/-- C2 witness: the all-unavailable three-version routemap still has a
positive weight sum after normalization. -/
theorem normalizeWeights_sum_pos_witness :
    0 < (normalizeWeights [] [] testRoutemap svcConfig).Weights.sum :=
  normalizeWeights_sum_pos [] [] svcConfig testRoutemap (by decide)

/-- C3: the weight vector always has exactly one entry per declared version,
and normalization leaves the declared version sequence (the order key of the
vector) unchanged. -/
theorem normalizeWeights_length_order (cs : ClusterState) (overrides : List (Option Nat))
    (config : Config) (rm : routemap) :
    (normalizeWeights cs overrides rm config).Weights.length = rm.Versions.length
    ∧ (normalizeWeights cs overrides rm config).Versions = rm.Versions := by
  refine ⟨?_, (normalizeWeights_fields cs overrides config rm).2.2⟩
  obtain ⟨nm, ns, vs, w⟩ := rm
  by_cases h : (resolvedWeights cs config ns vs overrides).sum = 0
  · cases vs <;> simp [normalizeWeights, routemap.Weights, h]
  · simp [normalizeWeights, routemap.Weights, h, resolvedWeights_length]

/-- C4: the normalizer resolves each version's weight by precedence — the
explicit override for that version if present, otherwise the declared weight,
otherwise the default unit weight — and an unavailable version resolves to 0
regardless; whenever the resolved weights do not sum to zero they are
published unchanged. -/
theorem normalizeWeights_precedence (cs : ClusterState) (config : Config)
    (overrides : List (Option Nat)) (rm : routemap) (i : Nat)
    (hi : i < rm.Versions.length) :
    ((resolvedWeights cs config rm.Namespace rm.Versions overrides).getD i 0 =
      if isVersionAvailable cs config rm.Namespace (rm.Versions.getD i ⟨[], none⟩) then
        (overrides.getD i none).getD
          ((rm.Versions.getD i ⟨[], none⟩).Weight.getD defaultVersionWeight)
      else 0)
    ∧ ((resolvedWeights cs config rm.Namespace rm.Versions overrides).sum ≠ 0 →
        (normalizeWeights cs overrides rm config).Weights =
          resolvedWeights cs config rm.Namespace rm.Versions overrides) := by
  constructor
  · exact resolvedWeights_getD cs config rm.Namespace rm.Versions overrides i hi
  · intro h
    obtain ⟨nm, ns, vs, w⟩ := rm
    simp only [normalizeWeights, routemap.Weights, if_neg h]

/-- C4 witness: two available versions, a declared weight of 2 at index 0 and
an explicit override of 5 at index 1 — the resolved weights are published
unchanged. -/
theorem normalizeWeights_precedence_witness :
    ((resolvedWeights [] svcConfig weightedRoutemap.Namespace weightedRoutemap.Versions
        [none, some 5]).getD 0 0 =
      if isVersionAvailable [] svcConfig weightedRoutemap.Namespace
          (weightedRoutemap.Versions.getD 0 ⟨[], none⟩) then
        (([none, some 5] : List (Option Nat)).getD 0 none).getD
          ((weightedRoutemap.Versions.getD 0 ⟨[], none⟩).Weight.getD defaultVersionWeight)
      else 0)
    ∧ (normalizeWeights [] [none, some 5] weightedRoutemap svcConfig).Weights =
        resolvedWeights [] svcConfig weightedRoutemap.Namespace weightedRoutemap.Versions
          [none, some 5] :=
  ⟨(normalizeWeights_precedence [] svcConfig [none, some 5] weightedRoutemap 0 (by decide)).1,
   (normalizeWeights_precedence [] svcConfig [none, some 5] weightedRoutemap 0
      (by decide)).2 (by decide)⟩

/-- C9: the normalizer is idempotent — re-running it with no intervening
change to the routemap's versions, availability inputs or weights yields an
identical vector (indeed an identical routemap). -/
theorem normalizeWeights_idempotent (cs : ClusterState) (overrides : List (Option Nat))
    (config : Config) (rm : routemap) :
    normalizeWeights cs overrides (normalizeWeights cs overrides rm config) config
      = normalizeWeights cs overrides rm config := by
  have hf := normalizeWeights_fields cs overrides config rm
  have := normalizeWeights_eq_of_fields cs overrides config rm
    (normalizeWeights cs overrides rm config) hf.1 hf.2.1 hf.2.2
  calc normalizeWeights cs overrides (normalizeWeights cs overrides rm config) config
      = normalizeWeights cs overrides rm config := this

/-! ### Helper lemmas about the condition evaluator -/

theorem entrySatisfies_stale (obj : UnstructuredObj) (c : Condition)
    (fields : List (String × UVal)) (g : Int)
    (hgen : getObservedGeneration obj fields = (g, true)) (hlt : g < obj.generation) :
    entrySatisfies obj c (UVal.vMap fields) = false := by
  have hdec : (decide (obj.generation ≤ g)) = false := decide_eq_false (not_le.mpr hlt)
  simp [entrySatisfies, hgen, hdec]

theorem entrySatisfies_name_status (obj : UnstructuredObj) (c : Condition) (e : UVal)
    (h : entrySatisfies obj c e = true) :
    entryTypeName e = some c.Name ∧ entryStatusStr e = some c.Status := by
  cases e with
  | vMap fields =>
    simp only [entrySatisfies, Bool.and_eq_true, beq_iff_eq] at h
    exact ⟨h.1.1, h.1.2⟩
  | vStr s => simp [entrySatisfies] at h
  | vInt n => simp [entrySatisfies] at h
  | vBool b => simp [entrySatisfies] at h
  | vList l => simp [entrySatisfies] at h

/-! ### Fixtures for the condition-evaluator witnesses -/

/-- The Config of scenario B: resource type "foo" requires condition
`bar = True`. -/
def confB : Config := ⟨[("foo", ⟨"", "", "", [⟨"bar", "True"⟩]⟩)], "30s"⟩

/-- A reported condition entry of scenario B at a given observed generation. -/
def entryB (g : Int) : List (String × UVal) :=
  [("type", UVal.vStr "bar"), ("status", UVal.vStr "True"),
   ("observedGeneration", UVal.vInt g)]

/-- The observed object of scenario B: current generation 13, one reported
condition entry at observed generation `g`. -/
def objB (g : Int) : UnstructuredObj := ⟨13, none, some [UVal.vMap (entryB g)]⟩

/-! ### Claims about the condition evaluator -/

/-- C5: a required condition is never treated as satisfied when its reported
generation lags the object's current generation, even when the status value
matches; it is satisfied when the status matches and the reported generation
equals the current generation. -/
theorem conditionsSatisfied_freshness (config : Config) (tag : String) (c : Condition)
    (obj : UnstructuredObj) (fields : List (String × UVal)) (g : Int)
    (hreq : requiredConditions config tag = [c])
    (hconds : obj.statusConditions = some [UVal.vMap fields])
    (hgen : getObservedGeneration obj fields = (g, true)) :
    (g < obj.generation → conditionsSatisfied obj tag config = false)
    ∧ (g = obj.generation →
        alistLookup fields "type" = some (UVal.vStr c.Name) →
        alistLookup fields "status" = some (UVal.vStr c.Status) →
        conditionsSatisfied obj tag config = true) := by
  constructor
  · intro hlt
    have hes := entrySatisfies_stale obj c fields g hgen hlt
    simp [conditionsSatisfied, hreq, hconds, hes]
  · intro hge htyp hstat
    simp [conditionsSatisfied, hreq, hconds, entrySatisfies, entryTypeName,
      entryStatusStr, htyp, hstat, hgen, hge]

/-- C5 witness: scenario B — status and type match at observed generation 13
against current generation 13 (satisfied), and at stale observed generation 12
(not satisfied). -/
theorem conditionsSatisfied_freshness_witness :
    conditionsSatisfied (objB 13) "foo" confB = true
    ∧ conditionsSatisfied (objB 12) "foo" confB = false :=
  ⟨(conditionsSatisfied_freshness confB "foo" ⟨"bar", "True"⟩ (objB 13) (entryB 13) 13
      rfl rfl rfl).2 rfl rfl rfl,
   (conditionsSatisfied_freshness confB "foo" ⟨"bar", "True"⟩ (objB 12) (entryB 12) 12
      rfl rfl rfl).1 (by decide)⟩

/-- C6: `getObservedGeneration` returns the condition-level observed
generation when present (even when a differing top-level status value also
exists), falls back to the top-level status value when the condition-level one
is absent, and reports not-found when neither is present. -/
theorem getObservedGeneration_precedence (obj : UnstructuredObj)
    (fields : List (String × UVal)) (g g' : Int) :
    (alistLookup fields "observedGeneration" = some (UVal.vInt g) →
      getObservedGeneration obj fields = (g, true))
    ∧ (alistLookup fields "observedGeneration" = none →
      obj.statusObservedGeneration = some g' →
      getObservedGeneration obj fields = (g', true))
    ∧ (alistLookup fields "observedGeneration" = none →
      obj.statusObservedGeneration = none →
      getObservedGeneration obj fields = (0, false)) :=
  ⟨fun h => by simp [getObservedGeneration, h],
   fun h1 h2 => by simp [getObservedGeneration, h1, h2],
   fun h1 h2 => by simp [getObservedGeneration, h1, h2]⟩

/-- C6 witness: scenario C — a condition-level value 1 wins over a differing
status-level value 2; the status-level value is used when the condition-level
one is absent; neither present reports not-found. -/
theorem getObservedGeneration_precedence_witness :
    getObservedGeneration ⟨13, some 2, none⟩ [("observedGeneration", UVal.vInt 1)] = (1, true)
    ∧ getObservedGeneration ⟨13, some 2, none⟩ [] = (2, true)
    ∧ getObservedGeneration ⟨13, none, none⟩ [] = (0, false) :=
  ⟨(getObservedGeneration_precedence ⟨13, some 2, none⟩
      [("observedGeneration", UVal.vInt 1)] 1 2).1 rfl,
   (getObservedGeneration_precedence ⟨13, some 2, none⟩ [] 1 2).2.1 rfl rfl,
   (getObservedGeneration_precedence ⟨13, none, none⟩ [] 1 2).2.2 rfl rfl⟩

/-- C7: the condition evaluator fails closed — when some condition is
required, an object with no structured condition list, or a list all of whose
entries are malformed (non-maps, or maps without a usable type or status
field), or a list with no entry matching a required condition's name, is never
satisfied. -/
theorem conditionsSatisfied_fail_closed (config : Config) (tag : String)
    (obj : UnstructuredObj) (hne : requiredConditions config tag ≠ []) :
    (obj.statusConditions = none → conditionsSatisfied obj tag config = false)
    ∧ (∀ entries, obj.statusConditions = some entries →
        (∀ e ∈ entries, entryTypeName e = none ∨ entryStatusStr e = none) →
        conditionsSatisfied obj tag config = false)
    ∧ (∀ entries c, obj.statusConditions = some entries →
        c ∈ requiredConditions config tag →
        (∀ e ∈ entries, ¬ entryTypeName e = some c.Name) →
        conditionsSatisfied obj tag config = false) := by
  obtain ⟨c₀, rest, hreq⟩ : ∃ c₀ rest, requiredConditions config tag = c₀ :: rest := by
    cases hr : requiredConditions config tag with
    | nil => exact absurd hr hne
    | cons a l => exact ⟨a, l, rfl⟩
  refine ⟨?_, ?_, ?_⟩
  · intro hnone
    simp [conditionsSatisfied, hreq, hnone]
  · intro entries hsome hmal
    have hany : entries.any (entrySatisfies obj c₀) = false := by
      rw [List.any_eq_false]
      intro e he hpe
      obtain ⟨h1, h2⟩ := entrySatisfies_name_status obj c₀ e hpe
      rcases hmal e he with hx | hx
      · rw [hx] at h1; cases h1
      · rw [hx] at h2; cases h2
    simp [conditionsSatisfied, hreq, hsome, hany]
  · intro entries c hsome hc hnom
    by_contra hcontra
    have htrue : conditionsSatisfied obj tag config = true := by
      cases hb : conditionsSatisfied obj tag config
      · exact absurd hb hcontra
      · rfl
    simp only [conditionsSatisfied, hsome, List.all_eq_true] at htrue
    have hct := htrue c hc
    simp only [List.any_eq_true] at hct
    obtain ⟨e, he, hes⟩ := hct
    exact hnom e he (entrySatisfies_name_status obj c e hes).1

/-- C7 witness: with the required condition of scenario B, an object with no
condition list, an object whose list holds only malformed entries, and an
object whose sole well-formed entry has a non-matching type are all
unsatisfied. -/
theorem conditionsSatisfied_fail_closed_witness :
    conditionsSatisfied ⟨13, none, none⟩ "foo" confB = false
    ∧ conditionsSatisfied ⟨13, none, some [UVal.vStr "a", UVal.vStr "b"]⟩ "foo" confB = false
    ∧ conditionsSatisfied
        ⟨13, none, some [UVal.vMap [("type", UVal.vStr "baz"),
          ("status", UVal.vStr "True")]]⟩ "foo" confB = false :=
  ⟨(conditionsSatisfied_fail_closed confB "foo" ⟨13, none, none⟩ (by decide)).1 rfl,
   (conditionsSatisfied_fail_closed confB "foo" ⟨13, none, some [UVal.vStr "a", UVal.vStr "b"]⟩
      (by decide)).2.1 [UVal.vStr "a", UVal.vStr "b"] rfl (by decide),
   (conditionsSatisfied_fail_closed confB "foo"
      ⟨13, none, some [UVal.vMap [("type", UVal.vStr "baz"), ("status", UVal.vStr "True")]]⟩
      (by decide)).2.2
      [UVal.vMap [("type", UVal.vStr "baz"), ("status", UVal.vStr "True")]] ⟨"bar", "True"⟩
      rfl (by decide) (by decide)⟩

/-! ### Fixtures for the extraction witness -/

/-- The scenario D document. -/
def scenarioDDoc : String := "versions:\n- resources: []\n  weight: 1\n"

/-- A deserializer (external collaborator) defined on exactly the scenario D
document, yielding its single declared version. -/
def deserializeD : String → Option (List version) :=
  fun s => if s = scenarioDDoc then some [⟨[], some 1⟩] else none

/-- The correctly labeled configuration object of scenario D. -/
def cmD : ConfigObject :=
  ⟨"test", "default",
    [(iter8ManagedByLabel, iter8ManagedByValue),
     (iter8KindLabel, iter8KindRoutemapValue),
     (iter8VersionLabel, majorMinor)],
    [(strSpecKey, scenarioDDoc)]⟩

/-- A previously registered routemap under scenario D's key. -/
def oldRm : routemap := ⟨"test", "default", [⟨[], some 7⟩], [7]⟩

/-! ### Claim about extraction -/

/-- C8: for a correctly labeled configuration object carrying the designated
data field, extraction returns an error exactly when the field fails to
deserialize — and then the configuration-object handler leaves any previously
registered state untouched — while a deserializable field extracts without
error into a routemap holding exactly the deserialized versions. -/
theorem extractRoutemap_spec (deserialize : String → Option (List version))
    (cm : ConfigObject) (config : Config) (cs : ClusterState)
    (overrides : List (Option Nat)) (reg : Registry) (s : String)
    (hlab : labelsMatch cm = true)
    (hs : alistLookup cm.data strSpecKey = some s) :
    (deserialize s = none →
      extractRoutemap deserialize cm config
          = Except.error "cannot deserialize spec data field"
      ∧ handleConfigObjectEvent deserialize cs overrides reg cm config = reg)
    ∧ (∀ vers, deserialize s = some vers →
      extractRoutemap deserialize cm config =
        Except.ok (some ⟨cm.Name, cm.Namespace, vers, []⟩)) := by
  constructor
  · intro hd
    have hext : extractRoutemap deserialize cm config
        = Except.error "cannot deserialize spec data field" := by
      simp [extractRoutemap, hlab, hs, hd]
    exact ⟨hext, by simp [handleConfigObjectEvent, hext]⟩
  · intro vers hd
    simp [extractRoutemap, hlab, hs, hd]

/-- C8 witness: scenario D extracts without error into a routemap with exactly
one version, and a failing deserializer leaves a previously registered
routemap untouched. -/
theorem extractRoutemap_spec_witness :
    extractRoutemap deserializeD cmD svcConfig =
      Except.ok (some ⟨cmD.Name, cmD.Namespace, [⟨[], some 1⟩], []⟩)
    ∧ handleConfigObjectEvent (fun _ => none) [] [] [(("default", "test"), oldRm)] cmD svcConfig
        = [(("default", "test"), oldRm)] :=
  ⟨(extractRoutemap_spec deserializeD cmD svcConfig [] [] [] scenarioDDoc rfl rfl).2
      [⟨[], some 1⟩] (by simp [deserializeD]),
   ((extractRoutemap_spec (fun _ => none) cmD svcConfig [] []
      [(("default", "test"), oldRm)] scenarioDDoc rfl rfl).1 rfl).2⟩

/-! ### Claim about the thread-safe application map -/

/-- C10: `Put` is insert-if-absent — when an entry with the application's name
already exists, the existing entry is returned and both the application map
and the lock map are left unchanged (the new value is discarded); when no
entry exists, the application and its per-application lock are inserted
together and the application is returned, so the every-application-has-a-lock
invariant is preserved. -/
theorem Put_insert_if_absent (m : ThreadSafeApplicationMap) (a cur : Application) :
    (alistLookup m.apps a.Name = some cur → m.Put a = (m, cur))
    ∧ (alistLookup m.apps a.Name = none →
        (m.Put a).2 = a
        ∧ alistLookup (m.Put a).1.apps a.Name = some a
        ∧ a.Name ∈ (m.Put a).1.mutexes
        ∧ (m.Put a).1.lastWriteTimes = m.lastWriteTimes
        ∧ ((∀ n app, (n, app) ∈ m.apps → n ∈ m.mutexes) →
            ∀ n app, (n, app) ∈ (m.Put a).1.apps → n ∈ (m.Put a).1.mutexes)) := by
  constructor
  · intro h
    simp [ThreadSafeApplicationMap.Put, h]
  · intro h
    simp only [ThreadSafeApplicationMap.Put, h]
    refine ⟨trivial, ?_, ?_, trivial, ?_⟩
    · simp [alistLookup]
    · simp
    · intro hinv n app hmem
      rcases List.mem_cons.mp hmem with heq | hmem'
      · cases heq
        simp
      · exact List.mem_cons_of_mem _ (hinv n app hmem')

/-- C10 witness: inserting into the empty map returns the new application and
allocates its lock; a second `Put` under the same name returns the first
application and changes nothing. -/
theorem Put_insert_if_absent_witness :
    ((⟨[], [], []⟩ : ThreadSafeApplicationMap).Put ⟨"default/demo", 1⟩).2 = ⟨"default/demo", 1⟩
    ∧ "default/demo" ∈ ((⟨[], [], []⟩ : ThreadSafeApplicationMap).Put ⟨"default/demo", 1⟩).1.mutexes
    ∧ (((⟨[], [], []⟩ : ThreadSafeApplicationMap).Put ⟨"default/demo", 1⟩).1.Put
          ⟨"default/demo", 2⟩)
        = (((⟨[], [], []⟩ : ThreadSafeApplicationMap).Put ⟨"default/demo", 1⟩).1,
           ⟨"default/demo", 1⟩) :=
  ⟨((Put_insert_if_absent ⟨[], [], []⟩ ⟨"default/demo", 1⟩ ⟨"default/demo", 1⟩).2 rfl).1,
   ((Put_insert_if_absent ⟨[], [], []⟩ ⟨"default/demo", 1⟩ ⟨"default/demo", 1⟩).2 rfl).2.2.1,
   (Put_insert_if_absent ((⟨[], [], []⟩ : ThreadSafeApplicationMap).Put ⟨"default/demo", 1⟩).1
      ⟨"default/demo", 2⟩ ⟨"default/demo", 1⟩).1 (by decide)⟩

end Iter8
